import Mathlib

/-!
Verification of the asynchronous query-processing pipeline:
priority detection, auto-tagging, spam detection, escalation,
routing and the queue adapter, shallowly embedded from the
JavaScript sources (`priorityService.js`, `taggingService.js`,
`routingService.js`, `queueService.js`, `workers/index.js`,
`queryController.js`).  Machine arithmetic of the source is
modelled exactly over `ℚ`; strings are Lean strings (lists of
characters); the external clock and the external tokenizer and
stemmer libraries are passed in as parameters.
-/

/-- ASCII lowercasing of a string, modelling `String.prototype.toLowerCase`
on the ASCII texts the services handle. -/
def lowerStr (s : String) : String := ⟨s.data.map Char.toLower⟩

/-- Whether `pat` occurs as a contiguous sublist of `s`; the empty pattern
always occurs.  Models `String.prototype.includes`. -/
def containsSub (pat : List Char) : List Char → Bool
  | [] => decide (pat = [])
  | c :: rest => pat.isPrefixOf (c :: rest) || containsSub pat rest

/-- String-level wrapper for `containsSub`: `includesStr s pat` models
`s.includes(pat)` of the source. -/
def includesStr (s pat : String) : Bool := containsSub pat.data s.data

/-- Helper for counting non-overlapping occurrences of `pat`: the `skip`
counter disables match starts inside a previously counted match, the way a
global regex scan advances past each match. -/
def countOccAux (pat : List Char) : List Char → Nat → Nat
  | [], _ => 0
  | _ :: rest, Nat.succ k => countOccAux pat rest k
  | s@(_ :: rest), 0 =>
    if pat ≠ [] ∧ pat.isPrefixOf s then 1 + countOccAux pat rest (pat.length - 1)
    else countOccAux pat rest 0

/-- Number of non-overlapping occurrences of `pat` in `s`, modelling
`s.match(/pat/g).length` of the source. -/
def countOcc (pat s : List Char) : Nat := countOccAux pat s 0

/-- Helper for `jsSetDedup`: drops elements already recorded in `seen`,
keeping first occurrences. -/
def dedupAux : List String → List String → List String
  | [], _ => []
  | x :: rest, seen =>
    if x ∈ seen then dedupAux rest seen else x :: dedupAux rest (x :: seen)

/-- Deduplication keeping the first occurrence of each element, modelling
the `[...new Set(arr)]` idiom of the source. -/
def jsSetDedup (l : List String) : List String := dedupAux l []

theorem mem_dedupAux (x : String) :
    ∀ (l seen : List String), x ∈ dedupAux l seen ↔ (x ∈ l ∧ x ∉ seen) := by
  intro l
  induction l with
  | nil => intro seen; simp [dedupAux]
  | cons y rest ih =>
    intro seen
    by_cases hy : y ∈ seen
    · rw [dedupAux, if_pos hy, ih]
      constructor
      · rintro ⟨hx, hns⟩; exact ⟨List.mem_cons_of_mem _ hx, hns⟩
      · rintro ⟨hx, hns⟩
        rcases List.mem_cons.mp hx with rfl | hx2
        · exact absurd hy hns
        · exact ⟨hx2, hns⟩
    · rw [dedupAux, if_neg hy]
      constructor
      · intro hx
        rcases List.mem_cons.mp hx with rfl | hx2
        · exact ⟨List.mem_cons_self _ _, hy⟩
        · obtain ⟨h1, h2⟩ := (ih (y :: seen)).mp hx2
          exact ⟨List.mem_cons_of_mem _ h1, fun hc => h2 (List.mem_cons_of_mem _ hc)⟩
      · rintro ⟨hx, hns⟩
        rcases List.mem_cons.mp hx with rfl | hx2
        · exact List.mem_cons_self _ _
        · by_cases hxy : x = y
          · subst hxy; exact List.mem_cons_self _ _
          · refine List.mem_cons_of_mem _ ((ih (y :: seen)).mpr ⟨hx2, fun hc => ?_⟩)
            rcases List.mem_cons.mp hc with h | h
            · exact hxy h
            · exact hns h

theorem nodup_dedupAux : ∀ (l seen : List String), (dedupAux l seen).Nodup := by
  intro l
  induction l with
  | nil => intro seen; simp [dedupAux]
  | cons y rest ih =>
    intro seen
    by_cases hy : y ∈ seen
    · simpa [dedupAux, if_pos hy] using ih seen
    · rw [dedupAux, if_neg hy, List.nodup_cons]
      refine ⟨fun hc => ?_, ih (y :: seen)⟩
      exact ((mem_dedupAux y rest (y :: seen)).mp hc).2 (List.mem_cons_self y seen)

theorem nodup_jsSetDedup (l : List String) : (jsSetDedup l).Nodup :=
  nodup_dedupAux l []

theorem mem_jsSetDedup (x : String) (l : List String) :
    x ∈ jsSetDedup l ↔ x ∈ l := by
  simp [jsSetDedup, mem_dedupAux]

/-- Strict-improvement selection fold shared by the team, user and primary-tag
selection loops of the source: the accumulator is updated exactly when the
candidate score strictly exceeds the best score so far. -/
def bestFold {α β : Type} [LinearOrder β] (score : α → β) :
    List α → Option α × β → Option α × β
  | [], acc => acc
  | x :: rest, (b, bs) =>
    if bs < score x then bestFold score rest (some x, score x)
    else bestFold score rest (b, bs)

/-- Maximum of the scores of `l` together with the initial bound `bs`. -/
def foldMax {α β : Type} [LinearOrder β] (score : α → β) (l : List α) (bs : β) : β :=
  l.foldr (fun x m => max (score x) m) bs

theorem le_foldMax_init {α β : Type} [LinearOrder β] (score : α → β) :
    ∀ (l : List α) (bs : β), bs ≤ foldMax score l bs := by
  intro l
  induction l with
  | nil => intro bs; exact le_refl _
  | cons x rest ih =>
    intro bs
    exact le_trans (ih bs) (le_max_right _ _)

theorem le_foldMax_of_mem {α β : Type} [LinearOrder β] (score : α → β) :
    ∀ (l : List α) (bs : β) (x : α), x ∈ l → score x ≤ foldMax score l bs := by
  intro l
  induction l with
  | nil => intro bs x hx; cases hx
  | cons y rest ih =>
    intro bs x hx
    rcases List.mem_cons.mp hx with rfl | hx2
    · exact le_max_left _ _
    · exact le_trans (ih bs x hx2) (le_max_right _ _)

theorem foldMax_cases {α β : Type} [LinearOrder β] (score : α → β) :
    ∀ (l : List α) (bs : β),
      foldMax score l bs = bs ∨ ∃ x ∈ l, foldMax score l bs = score x := by
  intro l
  induction l with
  | nil => intro bs; exact Or.inl rfl
  | cons y rest ih =>
    intro bs
    have hcons : foldMax score (y :: rest) bs = max (score y) (foldMax score rest bs) := rfl
    rw [hcons]
    by_cases hle : score y ≤ foldMax score rest bs
    · rw [max_eq_right hle]
      rcases ih bs with h | ⟨x, hx, h⟩
      · exact Or.inl h
      · exact Or.inr ⟨x, List.mem_cons_of_mem _ hx, h⟩
    · rw [max_eq_left (le_of_not_le hle)]
      exact Or.inr ⟨y, List.mem_cons_self _ _, rfl⟩

theorem bestFold_argmax {α β : Type} [LinearOrder β] (score : α → β) :
    ∀ (l : List α) (b : Option α) (bs : β),
      (bestFold score l (b, bs) = (b, bs) ∧ ∀ x ∈ l, score x ≤ bs) ∨
      (∃ l₁ x l₂, l = l₁ ++ x :: l₂ ∧
        bestFold score l (b, bs) = (some x, score x) ∧ bs < score x ∧
        (∀ y ∈ l₁, score y < score x) ∧ (∀ y ∈ l₂, score y ≤ score x)) := by
  intro l
  induction l with
  | nil =>
    intro b bs
    exact Or.inl ⟨rfl, by intro x hx; cases hx⟩
  | cons x rest ih =>
    intro b bs
    by_cases hx : bs < score x
    · rw [bestFold, if_pos hx]
      rcases ih (some x) (score x) with ⟨heq, hall⟩ | ⟨l₁, y, l₂, hsplit, heq, hlt, he, hl⟩
      · refine Or.inr ⟨[], x, rest, rfl, heq, hx, ?_, hall⟩
        intro y hy; cases hy
      · refine Or.inr ⟨x :: l₁, y, l₂, by rw [hsplit, List.cons_append], heq, lt_trans hx hlt, ?_, hl⟩
        intro z hz
        rcases List.mem_cons.mp hz with rfl | hz2
        · exact hlt
        · exact he z hz2
    · rw [bestFold, if_neg hx]
      rcases ih b bs with ⟨heq, hall⟩ | ⟨l₁, y, l₂, hsplit, heq, hlt, he, hl⟩
      · refine Or.inl ⟨heq, ?_⟩
        intro z hz
        rcases List.mem_cons.mp hz with rfl | hz2
        · exact le_of_not_lt hx
        · exact hall z hz2
      · refine Or.inr ⟨x :: l₁, y, l₂, by rw [hsplit, List.cons_append], heq, hlt, ?_, hl⟩
        intro z hz
        rcases List.mem_cons.mp hz with rfl | hz2
        · exact lt_of_le_of_lt (le_of_not_lt hx) hlt
        · exact he z hz2

theorem find_first {α : Type} (p : α → Bool) :
    ∀ (l₁ : List α) (x : α) (l₂ : List α),
      (∀ y ∈ l₁, p y = false) → p x = true →
      List.find? p (l₁ ++ x :: l₂) = some x := by
  intro l₁
  induction l₁ with
  | nil =>
    intro x l₂ _ hx
    simp [List.find?, hx]
  | cons y rest ih =>
    intro x l₂ hall hx
    have hy : p y = false := hall y (List.mem_cons_self _ _)
    simp only [List.cons_append, List.find?, hy]
    exact ih x l₂ (fun z hz => hall z (List.mem_cons_of_mem _ hz)) hx

theorem bestFold_fst_eq {α β : Type} [LinearOrder β] (score : α → β)
    (l : List α) (b : Option α) (bs : β) :
    (bestFold score l (b, bs)).1 =
      if foldMax score l bs = bs then b
      else List.find? (fun x => decide (score x = foldMax score l bs)) l := by
  rcases bestFold_argmax score l b bs with ⟨heq, hall⟩ | ⟨l₁, x, l₂, hsplit, heq, hlt, he, hl⟩
  · have hM : foldMax score l bs = bs := by
      rcases foldMax_cases score l bs with h | ⟨z, hz, h⟩
      · exact h
      · exact le_antisymm (h ▸ hall z hz) (le_foldMax_init score l bs)
    rw [heq, if_pos hM]
  · subst hsplit
    have hxmem : x ∈ l₁ ++ x :: l₂ := List.mem_append_right _ (List.mem_cons_self _ _)
    have hMx : foldMax score (l₁ ++ x :: l₂) bs = score x := by
      refine le_antisymm ?_ (le_foldMax_of_mem score _ bs x hxmem)
      rcases foldMax_cases score (l₁ ++ x :: l₂) bs with h | ⟨z, hz, h⟩
      · rw [h]; exact le_of_lt hlt
      · rw [h]
        rcases List.mem_append.mp hz with hz1 | hz2
        · exact le_of_lt (he z hz1)
        · rcases List.mem_cons.mp hz2 with rfl | hz3
          · exact le_refl _
          · exact hl z hz3
    have hne : foldMax score (l₁ ++ x :: l₂) bs ≠ bs := by rw [hMx]; exact ne_of_gt hlt
    rw [heq, if_neg hne]
    refine (find_first _ l₁ x l₂ ?_ ?_).symm
    · intro y hy
      simp only [decide_eq_false_iff_not]
      rw [hMx]
      exact ne_of_lt (he y hy)
    · simp only [decide_eq_true_eq]
      exact hMx.symm

theorem bestFold_unchanged {α β : Type} [LinearOrder β] (score : α → β)
    (l : List α) (b : Option α) (bs : β)
    (h : ∀ x ∈ l, ¬ bs < score x) : bestFold score l (b, bs) = (b, bs) := by
  induction l with
  | nil => rfl
  | cons x rest ih =>
    rw [bestFold, if_neg (h x (List.mem_cons_self _ _))]
    exact ih (fun z hz => h z (List.mem_cons_of_mem _ hz))

theorem foldl_add_eq {α M : Type} [AddCommMonoid M] (g : α → M) :
    ∀ (l : List α) (init : M),
      l.foldl (fun a x => a + g x) init = init + (l.map g).sum := by
  intro l
  induction l with
  | nil => intro init; simp
  | cons x rest ih =>
    intro init
    rw [List.foldl_cons, ih, List.map_cons, List.sum_cons, add_assoc]

theorem sum_ite_one_eq_length_filter {α : Type} (p : α → Bool) :
    ∀ l : List α,
      ((l.map (fun x => if p x then (1 : Nat) else 0)).sum) = (l.filter p).length := by
  intro l
  induction l with
  | nil => rfl
  | cons x rest ih =>
    by_cases hx : p x
    · simp [List.filter_cons, hx, ih, Nat.add_comm]
    · simp [List.filter_cons, hx, ih]

/-!  Priority detection (`priorityService.js`, `detectPriority`).  -/

/-- The input fields of a query read by `detectPriority`. -/
structure PriorityQuery where
  subject : String
  content : String
  channel : String
  primaryTag : String
  tags : List String
deriving DecidableEq

/-- Result of `detectPriority`: the level string and the stored integer score. -/
structure PriorityResult where
  priority : String
  priorityScore : Int
deriving DecidableEq

/-- `PRIORITY_KEYWORDS` table: each tier is its keyword list with its weight. -/
def PRIORITY_KEYWORDS : List (List String × ℚ) :=
  [ (["urgent", "asap", "immediately", "critical", "emergency",
      "as soon as possible", "right now"], 10),
    (["important", "soon", "quickly", "fast", "priority", "significant"], 7),
    (["normal", "regular", "standard"], 4),
    (["whenever", "no rush", "low priority", "not urgent"], 2) ]

/-- `TAG_PRIORITY_MAP` object of the source, as a partial lookup. -/
def TAG_PRIORITY_MAP : String → Option String
  | "complaint" => some "high"
  | "technical_issue" => some "high"
  | "billing" => some "high"
  | "question" => some "medium"
  | "request" => some "medium"
  | "feedback" => some "low"
  | "compliment" => some "low"
  | "other" => some "medium"
  | _ => none

/-- `CHANNEL_PRIORITY_MAP` object of the source, as a partial lookup. -/
def CHANNEL_PRIORITY_MAP : String → Option ℚ
  | "phone" => some (3/2)
  | "chat" => some (13/10)
  | "email" => some 1
  | "social_media" => some (6/5)
  | "community" => some (4/5)
  | _ => none

/-- The lowercased subject-plus-content text scanned for keywords. -/
def priorityCombined (q : PriorityQuery) : String :=
  lowerStr (q.subject ++ " " ++ q.content)

/-- Score after the keyword loops: base 50, plus the tier weight once per
matched keyword (the two nested `forEach` loops of the source). -/
def scoreAfterKeywords (q : PriorityQuery) : ℚ :=
  PRIORITY_KEYWORDS.foldl
    (fun acc tier =>
      tier.1.foldl
        (fun a kw => if includesStr (priorityCombined q) kw then a + tier.2 else a)
        acc)
    50

/-- Primary-tag adjustment: the `if (query.primaryTag && TAG_PRIORITY_MAP[...])`
block of the source (an empty tag string is falsy and skips the block). -/
def tagAdjustment (q : PriorityQuery) : ℚ :=
  if q.primaryTag ≠ "" then
    match TAG_PRIORITY_MAP q.primaryTag with
    | some tp =>
      if tp = "urgent" then 20
      else if tp = "high" then 10
      else if tp = "low" then -10
      else 0
    | none => 0
  else 0

/-- Score after the primary-tag adjustment. -/
def scoreAfterTag (q : PriorityQuery) : ℚ :=
  scoreAfterKeywords q + tagAdjustment q

/-- Score after the channel multiplication: multiplied only when the channel
is non-empty and present in `CHANNEL_PRIORITY_MAP`. -/
def scoreAfterChannel (q : PriorityQuery) : ℚ :=
  if q.channel ≠ "" then
    match CHANNEL_PRIORITY_MAP q.channel with
    | some c => scoreAfterTag q * c
    | none => scoreAfterTag q
  else scoreAfterTag q

/-- Score after the complaint-tag bonus. -/
def scoreAfterComplaint (q : PriorityQuery) : ℚ :=
  if "complaint" ∈ q.tags then scoreAfterChannel q + 15 else scoreAfterChannel q

/-- The clamp `Math.max(0, Math.min(100, score))`. -/
def clampedScore (q : PriorityQuery) : ℚ :=
  max 0 (min 100 (scoreAfterComplaint q))

/-- The threshold chain assigning a level string to a score. -/
def levelThreshold (s : ℚ) : String :=
  if s ≥ 80 then "urgent"
  else if s ≥ 60 then "high"
  else if s ≥ 30 then "medium"
  else "low"

/-- `Math.round` on the non-negative scores at hand: floor of `x + 1/2`. -/
def jsRound (x : ℚ) : Int := ⌊x + 1/2⌋

/-- `detectPriority`: the level is computed from the clamped score and the
returned score is the rounded clamped score. -/
def detectPriority (q : PriorityQuery) : PriorityResult :=
  { priority := levelThreshold (clampedScore q)
    priorityScore := jsRound (clampedScore q) }

/-!  Spec-side restatement of the claimed priority formula, written from the
words of the specification: base 50 plus the sum of matched tier weights, plus
the tag adjustment, times the channel coefficient, plus the complaint bonus,
clamped to the interval from 0 to 100.  -/

/-- Spec reading of the cumulative keyword bonus: the sum over every tier of
the tier weight once per matched keyword. -/
def specKeywordBonus (q : PriorityQuery) : ℚ :=
  (PRIORITY_KEYWORDS.map
    (fun tier =>
      (tier.1.map
        (fun kw => if includesStr (priorityCombined q) kw then tier.2 else 0)).sum)).sum

/-- Spec reading of the channel coefficient (1 when the channel is unknown). -/
def specChannelCoef (q : PriorityQuery) : ℚ :=
  if q.channel ≠ "" then (CHANNEL_PRIORITY_MAP q.channel).getD 1 else 1

/-- Spec reading of the whole clamped priority score. -/
def specClampedScore (q : PriorityQuery) : ℚ :=
  max 0 (min 100
    ((50 + specKeywordBonus q + tagAdjustment q) * specChannelCoef q +
      (if "complaint" ∈ q.tags then 15 else 0)))

theorem scoreAfterKeywords_eq (q : PriorityQuery) :
    scoreAfterKeywords q = 50 + specKeywordBonus q := by
  unfold scoreAfterKeywords specKeywordBonus
  have hinner : ∀ (tier : List String × ℚ) (acc : ℚ),
      tier.1.foldl
        (fun a kw => if includesStr (priorityCombined q) kw then a + tier.2 else a)
        acc =
      acc + (tier.1.map
        (fun kw => if includesStr (priorityCombined q) kw then tier.2 else 0)).sum := by
    intro tier acc
    have hfn : (fun (a : ℚ) kw => if includesStr (priorityCombined q) kw then a + tier.2 else a) =
        (fun (a : ℚ) kw => a + if includesStr (priorityCombined q) kw then tier.2 else 0) := by
      funext a kw
      by_cases h : includesStr (priorityCombined q) kw <;> simp [h]
    rw [hfn, foldl_add_eq]
  have houter : (fun (acc : ℚ) (tier : List String × ℚ) =>
      tier.1.foldl
        (fun a kw => if includesStr (priorityCombined q) kw then a + tier.2 else a)
        acc) =
      (fun (acc : ℚ) tier => acc +
        (tier.1.map
          (fun kw => if includesStr (priorityCombined q) kw then tier.2 else 0)).sum) := by
    funext acc tier
    exact hinner tier acc
  rw [houter, foldl_add_eq]

theorem clampedScore_eq_spec (q : PriorityQuery) :
    clampedScore q = specClampedScore q := by
  unfold clampedScore specClampedScore scoreAfterComplaint scoreAfterChannel
  unfold specChannelCoef scoreAfterTag
  rw [scoreAfterKeywords_eq]
  by_cases hch : q.channel ≠ ""
  · simp only [if_pos hch]
    cases hc : CHANNEL_PRIORITY_MAP q.channel with
    | none => by_cases hcom : "complaint" ∈ q.tags <;> simp [hcom]
    | some c => by_cases hcom : "complaint" ∈ q.tags <;> simp [hcom]
  · simp only [if_neg hch]
    by_cases hcom : "complaint" ∈ q.tags <;> simp [hcom]

theorem clampedScore_nonneg (q : PriorityQuery) : 0 ≤ clampedScore q :=
  le_max_left 0 _

theorem clampedScore_le_100 (q : PriorityQuery) : clampedScore q ≤ 100 :=
  max_le (by norm_num) (min_le_left _ _)

theorem jsRound_nonneg {x : ℚ} (h : 0 ≤ x) : 0 ≤ jsRound x := by
  unfold jsRound
  have h2 : (0 : ℚ) ≤ x + 1/2 := by linarith
  exact Int.le_floor.mpr (by exact_mod_cast h2)

theorem jsRound_le_100 {x : ℚ} (h : x ≤ 100) : jsRound x ≤ 100 := by
  unfold jsRound
  have h2 : x + 1/2 < (101 : ℚ) := by linarith
  have h3 : ⌊x + 1/2⌋ < (101 : ℤ) := Int.floor_lt.mpr (by exact_mod_cast h2)
  omega

/-- C1.  As stated the claim is false: the formula value at the query below is
159/2, while `detectPriority` returns the rounded score 80.  The subject and
content match one high-tier, one medium-tier and one low-tier keyword
(7 + 4 + 2), the primary tag "feedback" is low-mapped (-10), and the phone
coefficient 3/2 turns 53 into 159/2. -/
theorem C1_counterexample :
    ((detectPriority
        ⟨"important", "normal whenever", "phone", "feedback", ["feedback"]⟩).priorityScore : ℚ) ≠
      specClampedScore
        ⟨"important", "normal whenever", "phone", "feedback", ["feedback"]⟩ := by
  with_unfolding_all decide

/-- C1 (amended).  For every query, `detectPriority` returns the priority
level obtained by applying the thresholds to the clamped formula value, and
the stored score is that clamped value rounded to the nearest integer with
halves rounding up. -/
theorem C1_priority_formula (q : PriorityQuery) :
    detectPriority q =
      { priority := levelThreshold (specClampedScore q)
        priorityScore := jsRound (specClampedScore q) } := by
  unfold detectPriority
  rw [clampedScore_eq_spec]

/-- C2.  As stated the claim is false: at the query below the stored score is
80 but the returned level is "high", while the threshold function applied to
the stored score yields "urgent". -/
theorem C2_counterexample :
    (detectPriority
        ⟨"important", "normal whenever", "phone", "feedback", ["feedback"]⟩).priority ≠
      levelThreshold
        (((detectPriority
            ⟨"important", "normal whenever", "phone", "feedback", ["feedback"]⟩).priorityScore : Int) : ℚ) := by
  with_unfolding_all decide

/-- C2 (amended).  For every query the stored priority score lies in the
interval from 0 to 100, and the returned level is the threshold function of
the clamped pre-rounding score (hence not always of the stored rounded
score). -/
theorem C2_score_bounds_level (q : PriorityQuery) :
    (0 ≤ (detectPriority q).priorityScore ∧ (detectPriority q).priorityScore ≤ 100) ∧
    (detectPriority q).priority = levelThreshold (specClampedScore q) := by
  refine ⟨⟨jsRound_nonneg (clampedScore_nonneg q), jsRound_le_100 (clampedScore_le_100 q)⟩, ?_⟩
  show levelThreshold (clampedScore q) = levelThreshold (specClampedScore q)
  rw [clampedScore_eq_spec]

/-- C9.  `TAG_PRIORITY_MAP` maps no tag to "urgent", so the primary-tag
adjustment of `detectPriority` is always -10, 0 or +10 and the +20 branch is
unreachable. -/
theorem C9_tag_adjustment :
    (∀ t, TAG_PRIORITY_MAP t = none ∨ TAG_PRIORITY_MAP t = some "high" ∨
      TAG_PRIORITY_MAP t = some "medium" ∨ TAG_PRIORITY_MAP t = some "low") ∧
    ∀ q : PriorityQuery,
      tagAdjustment q = -10 ∨ tagAdjustment q = 0 ∨ tagAdjustment q = 10 := by
  have hmap : ∀ t, TAG_PRIORITY_MAP t = none ∨ TAG_PRIORITY_MAP t = some "high" ∨
      TAG_PRIORITY_MAP t = some "medium" ∨ TAG_PRIORITY_MAP t = some "low" := by
    intro t
    unfold TAG_PRIORITY_MAP
    split
    · exact Or.inr (Or.inl rfl)
    · exact Or.inr (Or.inl rfl)
    · exact Or.inr (Or.inl rfl)
    · exact Or.inr (Or.inr (Or.inl rfl))
    · exact Or.inr (Or.inr (Or.inl rfl))
    · exact Or.inr (Or.inr (Or.inr rfl))
    · exact Or.inr (Or.inr (Or.inr rfl))
    · exact Or.inr (Or.inr (Or.inl rfl))
    · exact Or.inl rfl
  refine ⟨hmap, ?_⟩
  intro q
  unfold tagAdjustment
  by_cases hpt : q.primaryTag ≠ ""
  · rw [if_pos hpt]
    rcases hmap q.primaryTag with h | h | h | h <;> rw [h]
    · exact Or.inr (Or.inl rfl)
    · exact Or.inr (Or.inr rfl)
    · exact Or.inr (Or.inl rfl)
    · exact Or.inl rfl
  · rw [if_neg hpt]
    exact Or.inr (Or.inl rfl)

/-!  Auto-tagging (`taggingService.js`, `analyzeAndTag`).  The tokenizer and
stemmer come from the external `natural` library; they are passed in as
parameters, so every theorem below holds for every tokenizer and stemmer.  -/

/-- `TAG_KEYWORDS` table in its declaration order. -/
def TAG_KEYWORDS : List (String × List String) :=
  [ ("question", ["question", "ask", "wonder", "curious", "how", "what", "why",
      "when", "where", "who", "?"]),
    ("request", ["request", "please", "need", "want", "require", "would like",
      "could you", "can you", "help me"]),
    ("complaint", ["complaint", "complaining", "unhappy", "dissatisfied",
      "disappointed", "angry", "frustrated", "problem", "issue", "wrong", "bad",
      "terrible", "awful", "horrible"]),
    ("compliment", ["compliment", "thank", "thanks", "appreciate", "great",
      "excellent", "amazing", "wonderful", "love", "fantastic", "brilliant"]),
    ("feedback", ["feedback", "suggest", "suggestion", "improve", "improvement",
      "idea", "opinion", "think"]),
    ("technical_issue", ["error", "bug", "broken", "not working", "crash",
      "technical", "glitch", "malfunction", "defect", "fault"]),
    ("billing", ["billing", "payment", "charge", "invoice", "bill", "refund",
      "money", "cost", "price", "subscription", "renewal"]) ]

/-- Result of `analyzeAndTag`. -/
structure TagResult where
  tags : List String
  primaryTag : String
  scores : List (String × Nat)
deriving DecidableEq

/-- Score of one keyword list: 2 per stemmed-token exact match plus 1 per
substring match, accumulated over the keywords (the inner loop of the
source). -/
def tagScoreOf (tokenize : String → List String) (stem : String → String)
    (subject content : String) (kws : List String) : Nat :=
  let combined := lowerStr (subject ++ " " ++ content)
  let stemmedTokens := (tokenize combined).map stem
  kws.foldl
    (fun acc kw =>
      let a1 := if stemmedTokens.contains (stem kw) then acc + 2 else acc
      if includesStr combined kw then a1 + 1 else a1)
    0

/-- `analyzeAndTag`: scores every category, picks the primary tag by strict
improvement over the running maximum (initial maximum 0, initial primary
"other"), collects the categories with positive score, defaults to
`["other"]` when none, and deduplicates. -/
def analyzeAndTag (tokenize : String → List String) (stem : String → String)
    (subject content : String) : TagResult :=
  let score := fun (p : String × List String) => tagScoreOf tokenize stem subject content p.2
  let picked := bestFold score TAG_KEYWORDS (none, 0)
  let primaryTag := (picked.1.map Prod.fst).getD "other"
  let detectedTags := (TAG_KEYWORDS.filter (fun p => decide (0 < score p))).map Prod.fst
  let finalTags := if detectedTags.isEmpty then ["other"] else detectedTags
  { tags := jsSetDedup finalTags
    primaryTag := primaryTag
    scores := TAG_KEYWORDS.map (fun p => (p.1, score p)) }

/-- Spec reading of the primary-tag rule: the first category in declaration
order whose score equals the maximum, when the maximum is positive, and
"other" otherwise. -/
def specPrimaryTag (tokenize : String → List String) (stem : String → String)
    (subject content : String) : String :=
  let score := fun (p : String × List String) => tagScoreOf tokenize stem subject content p.2
  let M := foldMax score TAG_KEYWORDS 0
  if M = 0 then "other"
  else ((TAG_KEYWORDS.find? (fun p => decide (score p = M))).map Prod.fst).getD "other"

/-- C3.  For every tokenizer, stemmer, subject and content, `analyzeAndTag`
returns a duplicate-free tag list containing its primary tag; the primary tag
is the first category in table-declaration order attaining the strictly
highest positive score ("other" when the maximum is zero, matching the
spec-side `specPrimaryTag`); and when every category scores zero the tag list
is exactly `["other"]` with primary tag "other". -/
theorem C3_analyze_and_tag (tokenize : String → List String)
    (stem : String → String) (subject content : String) :
    (analyzeAndTag tokenize stem subject content).tags.Nodup ∧
    (analyzeAndTag tokenize stem subject content).primaryTag ∈
      (analyzeAndTag tokenize stem subject content).tags ∧
    (analyzeAndTag tokenize stem subject content).primaryTag =
      specPrimaryTag tokenize stem subject content ∧
    ((∀ p ∈ TAG_KEYWORDS, tagScoreOf tokenize stem subject content p.2 = 0) →
      (analyzeAndTag tokenize stem subject content).tags = ["other"] ∧
      (analyzeAndTag tokenize stem subject content).primaryTag = "other") := by
  have htags : (analyzeAndTag tokenize stem subject content).tags =
      jsSetDedup
        (if ((TAG_KEYWORDS.filter
            (fun p => decide (0 < tagScoreOf tokenize stem subject content p.2))).map
              Prod.fst).isEmpty
          then ["other"]
          else (TAG_KEYWORDS.filter
            (fun p => decide (0 < tagScoreOf tokenize stem subject content p.2))).map
              Prod.fst) := rfl
  have hprimary : (analyzeAndTag tokenize stem subject content).primaryTag =
      (((bestFold (fun p : String × List String =>
          tagScoreOf tokenize stem subject content p.2) TAG_KEYWORDS (none, 0)).1).map
            Prod.fst).getD "other" := rfl
  refine ⟨?_, ?_, ?_, ?_⟩
  · rw [htags]
    exact nodup_jsSetDedup _
  · rw [htags, hprimary, mem_jsSetDedup]
    rcases bestFold_argmax (fun p : String × List String =>
        tagScoreOf tokenize stem subject content p.2) TAG_KEYWORDS none 0 with
      ⟨heq, hall⟩ | ⟨l₁, x, l₂, hsplit, heq, hlt, he, hl⟩
    · rw [heq]
      have hfe : TAG_KEYWORDS.filter
          (fun p => decide (0 < tagScoreOf tokenize stem subject content p.2)) = [] := by
        rw [List.filter_eq_nil_iff]
        intro p hp
        simp only [decide_eq_true_eq]
        exact fun hcon => absurd (hall p hp) (not_le.mpr hcon)
      rw [hfe]
      simp
    · rw [heq]
      have hxmem : x ∈ TAG_KEYWORDS := by
        rw [hsplit]; exact List.mem_append_right _ (List.mem_cons_self _ _)
      have hxf : x ∈ TAG_KEYWORDS.filter
          (fun p => decide (0 < tagScoreOf tokenize stem subject content p.2)) :=
        List.mem_filter.mpr ⟨hxmem, by simpa using hlt⟩
      have hxm : x.1 ∈ (TAG_KEYWORDS.filter
          (fun p => decide (0 < tagScoreOf tokenize stem subject content p.2))).map
            Prod.fst := List.mem_map_of_mem _ hxf
      have hne : ((TAG_KEYWORDS.filter
          (fun p => decide (0 < tagScoreOf tokenize stem subject content p.2))).map
            Prod.fst).isEmpty = false :=
        List.isEmpty_eq_false.mpr (List.ne_nil_of_mem hxm)
      rw [hne]
      simpa using hxm
  · rw [hprimary]
    unfold specPrimaryTag
    rw [bestFold_fst_eq]
    by_cases hM : foldMax (fun p : String × List String =>
        tagScoreOf tokenize stem subject content p.2) TAG_KEYWORDS 0 = 0
    · rw [if_pos hM, if_pos hM]
      rfl
    · rw [if_neg hM, if_neg hM]
  · intro hz
    have hfe : TAG_KEYWORDS.filter
        (fun p => decide (0 < tagScoreOf tokenize stem subject content p.2)) = [] := by
      rw [List.filter_eq_nil_iff]
      intro p hp
      simp only [decide_eq_true_eq]
      rw [hz p hp]
      exact lt_irrefl 0
    have hbf : bestFold (fun p : String × List String =>
        tagScoreOf tokenize stem subject content p.2) TAG_KEYWORDS
        ((none : Option (String × List String)), (0 : Nat)) = (none, 0) := by
      apply bestFold_unchanged
      intro p hp
      rw [hz p hp]
      exact lt_irrefl 0
    constructor
    · rw [htags, hfe]
      rfl
    · rw [hprimary, hbf]
      rfl

/-- Witness for C3: at a concrete input matching no keyword, the theorem
yields the `["other"]` tag set and primary tag. -/
theorem C3_analyze_and_tag_witness :
    (analyzeAndTag (fun _ => []) (fun s => s) "zz" "zz").tags = ["other"] ∧
    (analyzeAndTag (fun _ => []) (fun s => s) "zz" "zz").primaryTag = "other" :=
  (C3_analyze_and_tag (fun _ => []) (fun s => s) "zz" "zz").2.2.2 (by decide)

/-!  Spam detection (`workers/index.js`, `detectSpam`).  -/

/-- The fixed spam keyword list of the source. -/
def SPAM_KEYWORDS : List String :=
  [ "click here", "limited time", "act now", "urgent action required",
    "congratulations", "you have won", "free money", "nigerian prince",
    "viagra", "cialis", "weight loss", "get rich quick" ]

/-- Result record of `detectSpam`. -/
structure SpamResult where
  isSpam : Bool
  spamScore : Nat
  confidence : ℚ
deriving DecidableEq

/-- Number of ASCII uppercase letters in `s`, modelling
`content.match(/[A-Z]/g).length`. -/
def countUpper (s : String) : Nat :=
  (s.data.filter (fun c => decide (c.val ≥ 65 ∧ c.val ≤ 90))).length

/-- `detectSpam`: keyword hits, capitalization bonus and link bonus summed
into a score; spam when the score reaches 3; confidence is score over 5
capped at 1.  The uppercase ratio is a division guarded against an empty
body: the source divides by zero there, producing NaN, and NaN compared
against 0.5 is false, which the guard value 0 reproduces. -/
def detectSpam (content : String) : SpamResult :=
  let lowerContent := lowerStr content
  let kwScore := SPAM_KEYWORDS.foldl
    (fun acc kw => if includesStr lowerContent kw then acc + 1 else acc) 0
  let capsRatio : ℚ :=
    if content.data.length = 0 then 0
    else (countUpper content : ℚ) / (content.data.length : ℚ)
  let s2 := if capsRatio > 1/2 ∧ content.data.length > 20 then kwScore + 2 else kwScore
  let linkCount := countOcc "http".data (lowerStr content).data
  let s3 := if linkCount > 3 then s2 + 2 else s2
  { isSpam := decide (s3 ≥ 3)
    spamScore := s3
    confidence := min ((s3 : ℚ) / 5) 1 }

/-- Spec reading of the keyword component: the number of matched spam
keywords. -/
def spamKeywordHits (content : String) : Nat :=
  (SPAM_KEYWORDS.filter (fun kw => includesStr (lowerStr content) kw)).length

/-- Spec reading of the capitalization component. -/
def spamCapsBonus (content : String) : Nat :=
  if (if content.data.length = 0 then (0 : ℚ)
      else (countUpper content : ℚ) / (content.data.length : ℚ)) > 1/2 ∧
      content.data.length > 20
  then 2 else 0

/-- Spec reading of the link component. -/
def spamLinkBonus (content : String) : Nat :=
  if countOcc "http".data (lowerStr content).data > 3 then 2 else 0

theorem detectSpam_score_eq (content : String) :
    (detectSpam content).spamScore =
      spamKeywordHits content + spamCapsBonus content + spamLinkBonus content := by
  unfold detectSpam spamKeywordHits spamCapsBonus spamLinkBonus
  simp only []
  have hkw : SPAM_KEYWORDS.foldl
      (fun acc kw => if includesStr (lowerStr content) kw then acc + 1 else acc) 0 =
      (SPAM_KEYWORDS.filter (fun kw => includesStr (lowerStr content) kw)).length := by
    have hfn : (fun (acc : Nat) kw => if includesStr (lowerStr content) kw then acc + 1 else acc) =
        (fun (acc : Nat) kw => acc + if includesStr (lowerStr content) kw then 1 else 0) := by
      funext acc kw
      by_cases h : includesStr (lowerStr content) kw <;> simp [h]
    rw [hfn, foldl_add_eq, sum_ite_one_eq_length_filter]
    simp
  rw [hkw]
  split_ifs <;> omega

/-- C4.  For every content string, the spam verdict is true exactly when the
cumulative score (keyword hits, plus 2 for the capitalization condition, plus
2 for the link condition) reaches 3, and the confidence is the score over 5
capped at 1. -/
theorem C4_detect_spam (content : String) :
    ((detectSpam content).isSpam = true ↔ 3 ≤ (detectSpam content).spamScore) ∧
    (detectSpam content).spamScore =
      spamKeywordHits content + spamCapsBonus content + spamLinkBonus content ∧
    (detectSpam content).confidence = min (((detectSpam content).spamScore : ℚ) / 5) 1 := by
  refine ⟨?_, detectSpam_score_eq content, rfl⟩
  show decide _ = true ↔ _
  rw [decide_eq_true_eq]
  exact Iff.rfl

/-- C10.  On empty content `detectSpam` returns no spam, score 0 and
confidence 0; the guarded uppercase-ratio division contributes nothing, as
the NaN comparison of the source does. -/
theorem C10_detect_spam_empty :
    detectSpam "" = { isSpam := false, spamScore := 0, confidence := 0 } := by
  with_unfolding_all rfl

/-!  Escalation (`priorityService.js`, `shouldEscalate`, `escalateQuery`,
`processEscalations`).  The elapsed time since `receivedAt` is computed by the
source from the external clock; it is carried here as the field
`hoursSinceReceived`.  -/

/-- The fields of a query read and written by the escalation engine. -/
structure EscQuery where
  status : String
  isEscalated : Bool
  priority : String
  hoursSinceReceived : Int
deriving DecidableEq

/-- The per-priority escalation thresholds with the default-argument
fallback (24 unless a per-level entry exists). -/
def escalationThreshold (priority : String) (escalationThresholdHours : Int) : Int :=
  (List.lookup priority
    [("urgent", (1 : Int)), ("high", 4), ("medium", 12), ("low", 24)]).getD
    escalationThresholdHours

/-- `shouldEscalate`: false on resolved or closed status, false when already
escalated, else true exactly when the elapsed hours reach the threshold of
the current priority level. -/
def shouldEscalate (q : EscQuery) (escalationThresholdHours : Int) : Bool :=
  if q.status ∈ ["resolved", "closed"] then false
  else if q.isEscalated then false
  else decide (q.hoursSinceReceived ≥ escalationThreshold q.priority escalationThresholdHours)

/-- `escalateQuery`: a no-op on an already escalated query, otherwise sets
the flag and the status. -/
def escalateQuery (q : EscQuery) : EscQuery :=
  if q.isEscalated then q else { q with isEscalated := true, status := "escalated" }

/-- The statuses selected by the sweep of `processEscalations`. -/
def PENDING_STATUSES : List String := ["new", "assigned", "in_progress"]

/-- Effect of one sweep of `processEscalations` on a single record: only
pending, not-yet-escalated records passing `shouldEscalate` (with its default
threshold argument 24) are escalated. -/
def sweepOne (q : EscQuery) : EscQuery :=
  if q.status ∈ PENDING_STATUSES ∧ q.isEscalated = false ∧ shouldEscalate q 24 = true
  then escalateQuery q else q

/-- `processEscalations`: the post-state of every record after one sweep. -/
def processEscalations (qs : List EscQuery) : List EscQuery := qs.map sweepOne

/-- C5.  `shouldEscalate` at the default threshold argument is true exactly
when the status is neither resolved nor closed, the flag is not set, and the
elapsed hours reach the per-priority threshold (urgent 1, high 4, medium 12,
low 24, fallback 24); the sweep leaves terminal-status records unchanged and
never clears an escalation flag. -/
theorem C5_escalation (q : EscQuery) :
    (shouldEscalate q 24 = true ↔
      (q.status ≠ "resolved" ∧ q.status ≠ "closed" ∧ q.isEscalated = false ∧
        escalationThreshold q.priority 24 ≤ q.hoursSinceReceived)) ∧
    ((q.status = "resolved" ∨ q.status = "closed") → sweepOne q = q) ∧
    (q.isEscalated = true → (sweepOne q).isEscalated = true) ∧
    (∀ qs : List EscQuery, processEscalations qs = qs.map sweepOne) := by
  refine ⟨?_, ?_, ?_, fun _ => rfl⟩
  · unfold shouldEscalate
    split_ifs with hst hesc
    · simp only [List.mem_cons, List.not_mem_nil, or_false] at hst
      constructor
      · intro h; cases h
      · rintro ⟨h1, h2, _⟩
        rcases hst with h | h
        · exact absurd h h1
        · exact absurd h h2
    · constructor
      · intro h; cases h
      · rintro ⟨_, _, hflag, _⟩
        rw [hflag] at hesc
        exact Bool.noConfusion hesc
    · simp only [List.mem_cons, List.not_mem_nil, or_false, not_or] at hst
      obtain ⟨h1, h2⟩ := hst
      rw [decide_eq_true_eq]
      constructor
      · intro h
        refine ⟨h1, h2, ?_, h⟩
        cases hflag : q.isEscalated with
        | true => exact absurd hflag hesc
        | false => rfl
      · rintro ⟨_, _, _, h⟩
        exact h
  · intro hterm
    unfold sweepOne
    rw [if_neg]
    rintro ⟨hpend, _, _⟩
    unfold PENDING_STATUSES at hpend
    rcases hterm with h | h <;> rw [h] at hpend <;> simp at hpend
  · intro hesc
    unfold sweepOne
    rw [if_neg (by rintro ⟨_, hflag, _⟩; rw [hesc] at hflag; cases hflag)]
    exact hesc

/-- Witness for C5: a resolved record is untouched by the sweep, and an
already escalated record keeps its flag. -/
theorem C5_escalation_witness :
    sweepOne ⟨"resolved", false, "high", 100⟩ = ⟨"resolved", false, "high", 100⟩ ∧
    (sweepOne ⟨"new", true, "high", 100⟩).isEscalated = true :=
  ⟨(C5_escalation ⟨"resolved", false, "high", 100⟩).2.1 (Or.inl rfl),
   (C5_escalation ⟨"new", true, "high", 100⟩).2.2.1 rfl⟩

/-!  Routing (`routingService.js`, `findBestTeam`, `findBestUser`).  The
persistence layer is modelled by passing in the stored lists: the teams, the
users and the work items counted by the workload queries.  -/

/-- The capability fields of a team read by the routing engine. -/
structure Team where
  id : Nat
  isActive : Bool
  handlesTags : List String
  handlesChannels : List String
  handlesPriorities : List String
deriving DecidableEq

/-- The fields of a user read by the routing engine. -/
structure User where
  id : Nat
  team : Option Nat
  isActive : Bool
  role : String
  averageResponseTime : ℚ
deriving DecidableEq

/-- The assignment fields of a stored record used by the workload counts. -/
structure WorkItem where
  assignedTeam : Option Nat
  assignedTo : Option Nat
  status : String
deriving DecidableEq

/-- The fields of the query being routed. -/
structure RouteQuery where
  primaryTag : String
  channel : String
  priority : String
deriving DecidableEq

/-- The `Query.countDocuments` workload count of a team: its records with
status assigned or in_progress. -/
def teamWorkload (allQueries : List WorkItem) (t : Team) : Nat :=
  (allQueries.filter (fun r =>
    r.assignedTeam == some t.id &&
      (r.status == "assigned" || r.status == "in_progress"))).length

/-- Team score: 10 for a primary-tag match (skipped when the primary tag is
the falsy empty string), 8 for a channel match, 5 for a priority match,
minus half a point per workload item. -/
def teamScore (allQueries : List WorkItem) (q : RouteQuery) (t : Team) : ℚ :=
  (if q.primaryTag ≠ "" ∧ q.primaryTag ∈ t.handlesTags then 10 else 0)
  + (if q.channel ∈ t.handlesChannels then 8 else 0)
  + (if q.priority ∈ t.handlesPriorities then 5 else 0)
  - (teamWorkload allQueries t : ℚ) * (1/2)

/-- `findBestTeam`: the strict-improvement scan over the active teams with
initial best score 0 and no initial best team. -/
def findBestTeam (allTeams : List Team) (allQueries : List WorkItem)
    (q : RouteQuery) : Option Team :=
  (bestFold (teamScore allQueries q) (allTeams.filter (fun t => t.isActive))
    (none, 0)).1

/-- Spec reading of the team choice: among active teams, the first one in
scan order whose score equals the maximum, provided that maximum is
positive. -/
def specBestTeam (allTeams : List Team) (allQueries : List WorkItem)
    (q : RouteQuery) : Option Team :=
  let active := allTeams.filter (fun t => t.isActive)
  let M := foldMax (teamScore allQueries q) active 0
  if M = 0 then none
  else active.find? (fun t => decide (teamScore allQueries q t = M))

/-- The workload count of a user. -/
def userWorkload (allQueries : List WorkItem) (u : User) : Nat :=
  (allQueries.filter (fun r =>
    r.assignedTo == some u.id &&
      (r.status == "assigned" || r.status == "in_progress"))).length

/-- User score: minus 10 per workload item, plus the inverse-response-time
bonus when the average is positive, plus the role bonus. -/
def userScore (allQueries : List WorkItem) (u : User) : ℚ :=
  let s : ℚ := 0 - (userWorkload allQueries u : ℚ) * 10
  let s2 := if u.averageResponseTime > 0 then s + 100 / u.averageResponseTime else s
  if u.role = "specialist" then s2 + 5
  else if u.role = "manager" then s2 + 3
  else s2

/-- `findBestUser`: among active users of the team, strict improvement over
an initial minus-infinity sentinel, with the first queried user as the
fallback; none when the team roster is empty. -/
def findBestUser (allUsers : List User) (allQueries : List WorkItem)
    (team : Team) : Option User :=
  match allUsers.filter (fun u => u.team == some team.id && u.isActive) with
  | [] => none
  | u₀ :: rest =>
    some (((bestFold (fun u => ((userScore allQueries u : ℚ) : WithBot ℚ))
      (u₀ :: rest) (none, ⊥)).1).getD u₀)

/-- C6.  `findBestTeam` equals its spec reading (first team reaching the
positive maximum, ties keeping the earlier team), returns only active teams
with strictly positive score, and `findBestUser` returns only active members
of the given team. -/
theorem C6_routing (allTeams : List Team) (allQueries : List WorkItem)
    (q : RouteQuery) (allUsers : List User) (team : Team) :
    findBestTeam allTeams allQueries q = specBestTeam allTeams allQueries q ∧
    (∀ t, findBestTeam allTeams allQueries q = some t →
      t.isActive = true ∧ 0 < teamScore allQueries q t) ∧
    (∀ u, findBestUser allUsers allQueries team = some u →
      u.isActive = true ∧ u.team = some team.id) := by
  have h1 : findBestTeam allTeams allQueries q = specBestTeam allTeams allQueries q := by
    unfold findBestTeam specBestTeam
    exact bestFold_fst_eq (teamScore allQueries q) _ none 0
  refine ⟨h1, ?_, ?_⟩
  · intro t ht
    rw [h1] at ht
    unfold specBestTeam at ht
    by_cases hM : foldMax (teamScore allQueries q)
        (allTeams.filter (fun t => t.isActive)) 0 = 0
    · rw [if_pos hM] at ht
      cases ht
    · rw [if_neg hM] at ht
      have hmem : t ∈ allTeams.filter (fun t => t.isActive) :=
        List.mem_of_find?_eq_some ht
      have hact : t.isActive = true := (List.mem_filter.mp hmem).2
      have hscore : teamScore allQueries q t = foldMax (teamScore allQueries q)
          (allTeams.filter (fun t => t.isActive)) 0 := by
        have := List.find?_some ht
        simpa using this
      refine ⟨hact, ?_⟩
      rw [hscore]
      exact lt_of_le_of_ne (le_foldMax_init _ _ _) (Ne.symm hM)
  · intro u hu
    unfold findBestUser at hu
    rcases hflt : allUsers.filter (fun u => u.team == some team.id && u.isActive) with
      _ | ⟨u₀, rest⟩
    · rw [hflt] at hu
      cases hu
    · rw [hflt] at hu
      have hu2 : some (((bestFold (fun u => ((userScore allQueries u : ℚ) : WithBot ℚ))
          (u₀ :: rest) (none, ⊥)).1).getD u₀) = some u := hu
      have humem : u ∈ allUsers.filter (fun u => u.team == some team.id && u.isActive) := by
        rw [hflt]
        rcases bestFold_argmax (fun u => ((userScore allQueries u : ℚ) : WithBot ℚ))
            (u₀ :: rest) none ⊥ with ⟨heq, _⟩ | ⟨l₁, x, l₂, hsplit, heq, _, _, _⟩
        · rw [heq] at hu2
          simp only [Option.getD_none, Option.some.injEq] at hu2
          rw [← hu2]
          exact List.mem_cons_self _ _
        · rw [heq] at hu2
          simp only [Option.getD_some, Option.some.injEq] at hu2
          rw [← hu2, hsplit]
          exact List.mem_append_right _ (List.mem_cons_self _ _)
      have hpred := (List.mem_filter.mp humem).2
      rw [Bool.and_eq_true] at hpred
      obtain ⟨hteam, hact⟩ := hpred
      exact ⟨hact, by rwa [beq_iff_eq] at hteam⟩

/-- Witness for C6: at a one-team, one-user instance both selections return
a value, and the theorem yields activity, positive team score and
team-membership of the selected user. -/
theorem C6_routing_witness :
    (Team.mk 1 true ["question"] ["email"] ["medium"]).isActive = true ∧
    0 < teamScore [] ⟨"question", "email", "medium"⟩
      (Team.mk 1 true ["question"] ["email"] ["medium"]) ∧
    (User.mk 7 (some 1) true "agent" 0).isActive = true ∧
    (User.mk 7 (some 1) true "agent" 0).team =
      some (Team.mk 1 true ["question"] ["email"] ["medium"]).id := by
  have h := C6_routing [Team.mk 1 true ["question"] ["email"] ["medium"]] []
    ⟨"question", "email", "medium"⟩ [User.mk 7 (some 1) true "agent" 0]
    (Team.mk 1 true ["question"] ["email"] ["medium"])
  have hbt := h.2.1 (Team.mk 1 true ["question"] ["email"] ["medium"])
    (by with_unfolding_all decide)
  have hbu := h.2.2 (User.mk 7 (some 1) true "agent" 0)
    (by with_unfolding_all decide)
  exact ⟨hbt.1, hbt.2, hbu.1, hbu.2⟩

/-!  Ingestion validation (`queryController.js`, `createQuery`).  The HTTP
framing is outside the model; the embedded function performs the validation
steps of the controller and returns either the created record or the error
message of the rejecting branch.  A missing field of the JSON body is the
falsy empty string.  -/

/-- The request-body fields read by `createQuery`. -/
structure CreatePayload where
  subject : String
  content : String
  channel : String
  senderName : String
  senderEmail : String
deriving DecidableEq

/-- The valid channels of the controller. -/
def VALID_CHANNELS : List String :=
  ["email", "social_media", "chat", "community", "phone"]

/-- The record created on acceptance. -/
structure CreatedQuery where
  subject : String
  content : String
  channel : String
  senderName : String
  senderEmail : String
deriving DecidableEq

/-- `createQuery` validation: reject when any of subject, content, channel or
senderName is falsy, then reject an invalid channel, else create the
record. -/
def createQuery (p : CreatePayload) : Except String CreatedQuery :=
  if p.subject = "" ∨ p.content = "" ∨ p.channel = "" ∨ p.senderName = "" then
    Except.error "Missing required fields: subject, content, channel, senderName"
  else if p.channel ∉ VALID_CHANNELS then
    Except.error "Invalid channel"
  else
    Except.ok ⟨p.subject, p.content, p.channel, p.senderName, p.senderEmail⟩

/-- Whether a payload is accepted (a record is created). -/
def createQueryAccepted (p : CreatePayload) : Bool :=
  match createQuery p with
  | Except.ok _ => true
  | Except.error _ => false

/-- C7.  As stated the claim is false: this payload has non-empty content
but is rejected, because its subject is empty. -/
theorem C7_counterexample :
    createQueryAccepted ⟨"", "hello", "email", "Bob", ""⟩ = false ∧
    0 < (CreatePayload.mk "" "hello" "email" "Bob" "").content.length := by
  decide

/-- C7 (amended).  A payload is accepted exactly when subject, content and
senderName are all non-empty and the channel is one of the five valid
channels; in particular non-empty content alone does not suffice. -/
theorem C7_validation (p : CreatePayload) :
    createQueryAccepted p = true ↔
      (p.subject ≠ "" ∧ p.content ≠ "" ∧ p.senderName ≠ "" ∧
        p.channel ∈ VALID_CHANNELS) := by
  unfold createQueryAccepted createQuery
  by_cases h1 : p.subject = "" ∨ p.content = "" ∨ p.channel = "" ∨ p.senderName = ""
  · rw [if_pos h1]
    show (false = true) ↔ _
    constructor
    · intro h
      exact Bool.noConfusion h
    · rintro ⟨hs, hc, hn, hch⟩
      rcases h1 with h | h | h | h
      · exact absurd h hs
      · exact absurd h hc
      · rw [h] at hch
        simp [VALID_CHANNELS] at hch
      · exact absurd h hn
  · rw [if_neg h1]
    push_neg at h1
    obtain ⟨hs, hc, hch0, hn⟩ := h1
    by_cases h2 : p.channel ∉ VALID_CHANNELS
    · rw [if_pos h2]
      show (false = true) ↔ _
      constructor
      · intro h
        exact Bool.noConfusion h
      · rintro ⟨_, _, _, hch⟩
        exact absurd hch h2
    · rw [if_neg h2]
      show (true = true) ↔ _
      constructor
      · intro _
        exact ⟨hs, hc, hn, not_not.mp h2⟩
      · intro _
        rfl

/-!  Queue adapter (`queueService.js`).  Broker connectivity is modelled by
a reachability flag: on an unreachable broker `initRedis` takes its failure
path and leaves every queue unconstructed (`null`), and each enqueue
function checks its queue for `null` and raises the corresponding error
message.  The connect-timeout mechanics are external timing behaviour and
are abstracted into the flag.  -/

/-- A constructed Bull queue object. -/
structure BullQueue where
  name : String
deriving DecidableEq

/-- The module-level queue slots of `queueService.js` (`null` = `none`). -/
structure QueueState where
  queryQueue : Option BullQueue
  taggingQueue : Option BullQueue
  sentimentQueue : Option BullQueue
  priorityQueue : Option BullQueue
  spamQueue : Option BullQueue
  notificationQueue : Option BullQueue
deriving DecidableEq

/-- `initRedis`: on a reachable broker the six queues are created after the
connection succeeds; on an unreachable broker the failure path leaves every
slot `null`. -/
def initRedis (brokerReachable : Bool) : QueueState :=
  if brokerReachable then
    { queryQueue := some ⟨"query-processing"⟩
      taggingQueue := some ⟨"tagging"⟩
      sentimentQueue := some ⟨"sentiment"⟩
      priorityQueue := some ⟨"priority"⟩
      spamQueue := some ⟨"spam-detection"⟩
      notificationQueue := some ⟨"notification"⟩ }
  else
    { queryQueue := none, taggingQueue := none, sentimentQueue := none,
      priorityQueue := none, spamQueue := none, notificationQueue := none }

/-- A job added to a queue. -/
structure QueueJob where
  queue : String
  jobName : String
deriving DecidableEq

/-- `addQueryToQueue`: raises when the query queue was never constructed. -/
def addQueryToQueue (st : QueueState) (queryId : Nat) : Except String QueueJob :=
  match st.queryQueue with
  | none => Except.error "Query queue not available (Redis not connected)"
  | some qq => Except.ok ⟨qq.name, "process-query"⟩

/-- `addTaggingJob`. -/
def addTaggingJob (st : QueueState) (queryId : Nat) (content : String) :
    Except String QueueJob :=
  match st.taggingQueue with
  | none => Except.error "Tagging queue not available (Redis not connected)"
  | some q => Except.ok ⟨q.name, "tag-query"⟩

/-- `addSentimentJob`. -/
def addSentimentJob (st : QueueState) (queryId : Nat) (content : String) :
    Except String QueueJob :=
  match st.sentimentQueue with
  | none => Except.error "Sentiment queue not available (Redis not connected)"
  | some q => Except.ok ⟨q.name, "analyze-sentiment"⟩

/-- `addPriorityJob`. -/
def addPriorityJob (st : QueueState) (queryId : Nat) :
    Except String QueueJob :=
  match st.priorityQueue with
  | none => Except.error "Priority queue not available (Redis not connected)"
  | some q => Except.ok ⟨q.name, "detect-priority"⟩

/-- `addSpamJob`. -/
def addSpamJob (st : QueueState) (queryId : Nat) (content senderEmail : String) :
    Except String QueueJob :=
  match st.spamQueue with
  | none => Except.error "Spam queue not available (Redis not connected)"
  | some q => Except.ok ⟨q.name, "detect-spam"⟩

/-- `addNotificationJob`. -/
def addNotificationJob (st : QueueState) (ntype recipient : String) :
    Except String QueueJob :=
  match st.notificationQueue with
  | none => Except.error "Notification queue not available (Redis not connected)"
  | some q => Except.ok ⟨q.name, "send-notification"⟩

/-- C8.  With the broker unreachable, `initRedis` constructs no queue object
and every enqueue function returns its broker-unavailable error for every
input, instead of producing a job. -/
theorem C8_broker_down (queryId : Nat) (content senderEmail ntype recipient : String) :
    (initRedis false).queryQueue = none ∧
    (initRedis false).taggingQueue = none ∧
    (initRedis false).sentimentQueue = none ∧
    (initRedis false).priorityQueue = none ∧
    (initRedis false).spamQueue = none ∧
    (initRedis false).notificationQueue = none ∧
    addQueryToQueue (initRedis false) queryId =
      Except.error "Query queue not available (Redis not connected)" ∧
    addTaggingJob (initRedis false) queryId content =
      Except.error "Tagging queue not available (Redis not connected)" ∧
    addSentimentJob (initRedis false) queryId content =
      Except.error "Sentiment queue not available (Redis not connected)" ∧
    addPriorityJob (initRedis false) queryId =
      Except.error "Priority queue not available (Redis not connected)" ∧
    addSpamJob (initRedis false) queryId content senderEmail =
      Except.error "Spam queue not available (Redis not connected)" ∧
    addNotificationJob (initRedis false) ntype recipient =
      Except.error "Notification queue not available (Redis not connected)" :=
  ⟨rfl, rfl, rfl, rfl, rfl, rfl, rfl, rfl, rfl, rfl, rfl, rfl⟩
